import Mathlib

/-!
Verification development for the map-based traffic-mirror detector
(`src/node.cpp`).  The geometric pipeline is embedded shallowly:

* C++ `double` values are modelled as exact real numbers;
* ROS times and durations are modelled as integer nanosecond counts,
  which is exactly what `rclcpp::Time`/`rclcpp::Duration` store
  (`0.01 s = 10000000 ns`);
* the calibrated pinhole camera (`image_geometry::PinholeCameraModel`) is an
  external collaborator and is modelled as a black-box raw-projection
  function together with its image dimensions, exactly as the node uses it
  (`project3dToPixel` composed with `unrectifyPoint`);
* the `uint32` fields of `sensor_msgs::RegionOfInterest` are modelled as
  integers, with the C++ double-to-field conversion modelled as mathematical
  truncation toward zero (the conversion is only ever forced on in-range
  values on the success path; on a negative value the C++ conversion to the
  unsigned field is undefined behaviour and the mathematical truncation is
  the evident intent, under which the `width < 1` test rejects the box).
-/

/-- A 3D vector (`tf2::Vector3`), components modelled as exact reals. -/
structure V3 where
  x : ℝ
  y : ℝ
  z : ℝ

/-- A 3x3 matrix (`tf2::Matrix3x3`), stored as rows like tf2 does. -/
structure M3 where
  xx : ℝ
  xy : ℝ
  xz : ℝ
  yx : ℝ
  yy : ℝ
  yz : ℝ
  zx : ℝ
  zy : ℝ
  zz : ℝ

/-- Row times vector (`tf2::Matrix3x3::operator*`). -/
noncomputable def M3.mulVec (m : M3) (v : V3) : V3 :=
  ⟨m.xx * v.x + m.xy * v.y + m.xz * v.z,
   m.yx * v.x + m.yy * v.y + m.yz * v.z,
   m.zx * v.x + m.zy * v.y + m.zz * v.z⟩

/-- Transposed matrix times vector (`tf2::Matrix3x3::tdotx/y/z`). -/
noncomputable def M3.tmulVec (m : M3) (v : V3) : V3 :=
  ⟨m.xx * v.x + m.yx * v.y + m.zx * v.z,
   m.xy * v.x + m.yy * v.y + m.zy * v.z,
   m.xz * v.x + m.yz * v.y + m.zz * v.z⟩

/-- A rigid transform from map frame to camera frame (`tf2::Transform`):
rotation basis plus translation origin. -/
structure Transform where
  basis : M3
  origin : V3

/-- Application of `tf.inverse()` to a point.  For a `tf2::Transform` the
inverse is formed from the transposed basis (`Transform.h`: `inverse()`
returns `Transform(basis.transpose(), basis.transpose() * -origin)`), so
`tf.inverse() * p = basisᵀ * (p - origin)`. -/
noncomputable def invApply (tf : Transform) (p : V3) : V3 :=
  M3.tmulVec tf.basis ⟨p.x - tf.origin.x, p.y - tf.origin.y, p.z - tf.origin.z⟩

/-- `tf.getRotation()` turned into a `Matrix3x3` and applied to a vector
(used for the camera optical axis in `getVisibleTrafficMirrors`). -/
noncomputable def rotApply (tf : Transform) (v : V3) : V3 :=
  M3.mulVec tf.basis v

/-- The calibrated camera (`image_geometry::PinholeCameraModel`).  The node
only uses the image dimensions and the composite raw projection
`project3dToPixel` followed by `unrectifyPoint`; the projection is an
external collaborator and is modelled as a black-box function from camera
frame points to raw pixel coordinates. -/
structure CameraModel where
  width : ℕ
  height : ℕ
  proj : V3 → ℝ × ℝ

/-- `calcRawImagePointFromPoint3D` (node.cpp:44-56): project a camera-frame
point to a raw (distorted) pixel. -/
noncomputable def calcRawImagePointFromPoint3D (cam : CameraModel) (p : V3) : ℝ × ℝ :=
  cam.proj p

/-- `roundInImageFrame` (node.cpp:58-66): clamp a pixel into
`[0, width-1] x [0, height-1]`. -/
noncomputable def roundInImageFrame (cam : CameraModel) (pt : ℝ × ℝ) : ℝ × ℝ :=
  (max (min pt.1 ((cam.width : ℝ) - 1)) 0, max (min pt.2 ((cam.height : ℝ) - 1)) 0)

/-- `isInDistanceRange` (node.cpp:68-74): squared map-plane distance test. -/
def isInDistanceRange (p1 p2 : V3) (max_distance_range : ℝ) : Prop :=
  (p1.x - p2.x) * (p1.x - p2.x) + (p1.y - p2.y) * (p1.y - p2.y) <
    max_distance_range * max_distance_range

/-- Truncation toward zero, the conversion a C++ `static_cast` from `double`
to an integer type performs on in-range values. -/
noncomputable def truncR (x : ℝ) : ℤ :=
  if 0 ≤ x then ⌊x⌋ else ⌈x⌉

/-- `std::fmod`: remainder with the sign of the dividend, i.e.
`x - y * trunc(x / y)`. -/
noncomputable def fmodR (x y : ℝ) : ℝ :=
  x - y * (truncR (x / y) : ℝ)

/-- `std::atan2` (C semantics, exact-real model): the angle of the planar
vector `(x, y)` in `[-pi, pi]`. -/
noncomputable def atan2 (y x : ℝ) : ℝ :=
  if 0 < x then Real.arctan (y / x)
  else if x < 0 then
    (if 0 ≤ y then Real.arctan (y / x) + Real.pi else Real.arctan (y / x) - Real.pi)
  else
    (if 0 < y then Real.pi / 2 else if y < 0 then -(Real.pi / 2) else 0)

/-- `tier4_autoware_utils::deg2rad`. -/
noncomputable def deg2rad (deg : ℝ) : ℝ :=
  deg * Real.pi / 180

/-- `tier4_autoware_utils::normalizeRadian` with its default minimum of
`-pi`: `value = fmod(rad, 2 pi)`; return it if it lies in `[-pi, pi)`, else
shift by `2 pi` away from its own sign (`copysign`). -/
noncomputable def normalizeRadian (rad : ℝ) : ℝ :=
  if -Real.pi ≤ fmodR rad (2 * Real.pi) ∧ fmodR rad (2 * Real.pi) < Real.pi then
    fmodR rad (2 * Real.pi)
  else
    fmodR rad (2 * Real.pi) -
      (if 0 ≤ fmodR rad (2 * Real.pi) then 2 * Real.pi else -(2 * Real.pi))

/-- `isInAngleRange` (node.cpp:76-83): the absolute angular difference of
the two yaws, obtained via the dot product of their unit vectors and
`acos`, must be strictly below `max_angle_range`. -/
noncomputable def isInAngleRange (tl_yaw camera_yaw max_angle_range : ℝ) : Prop :=
  |Real.arccos (Real.cos tl_yaw * Real.cos camera_yaw +
      Real.sin tl_yaw * Real.sin camera_yaw)| < max_angle_range

/-- `isInImageFrame` (node.cpp:85-99): strictly positive depth and the raw
projected pixel inside `[0, width) x [0, height)`. -/
noncomputable def isInImageFrame (cam : CameraModel) (point : V3) : Prop :=
  0 < point.z ∧
    0 ≤ (calcRawImagePointFromPoint3D cam point).1 ∧
    (calcRawImagePointFromPoint3D cam point).1 < (cam.width : ℝ) ∧
    0 ≤ (calcRawImagePointFromPoint3D cam point).2 ∧
    (calcRawImagePointFromPoint3D cam point).2 < (cam.height : ℝ)

/-- A map landmark (`lanelet::ConstLineString3d` traffic mirror): the first
and last points of the line string, the optional `height` attribute and the
optional `subtype` attribute.  Identity is the stable lanelet id. -/
structure Landmark where
  id : ℤ
  front : V3
  back : V3
  heightAttr : Option ℝ
  subtype : Option String

/-- `getTrafficMirrorTopLeft` (node.cpp:101-106): first point raised by the
`height` attribute, which defaults to `0` when absent (`attributeOr`). -/
noncomputable def getTrafficMirrorTopLeft (lm : Landmark) : V3 :=
  ⟨lm.front.x, lm.front.y, lm.front.z + lm.heightAttr.getD 0⟩

/-- `getTrafficMirrorBottomRight` (node.cpp:108-112): the raw last point. -/
noncomputable def getTrafficMirrorBottomRight (lm : Landmark) : V3 :=
  lm.back

/-- `getTrafficMirrorCenter` (node.cpp:114-119): midpoint of the raised
top-left point and the bottom-right point. -/
noncomputable def getTrafficMirrorCenter (lm : Landmark) : V3 :=
  ⟨(getTrafficMirrorTopLeft lm).x / 2 + (getTrafficMirrorBottomRight lm).x / 2,
   (getTrafficMirrorTopLeft lm).y / 2 + (getTrafficMirrorBottomRight lm).y / 2,
   (getTrafficMirrorTopLeft lm).z / 2 + (getTrafficMirrorBottomRight lm).z / 2⟩

/-- The node's parameter block (`Config`).  The five vibration terms and
the detection range (doubles, modelled as reals) and the three timestamp
parameters, modelled in the integer nanoseconds they are converted to when
used as ROS durations. -/
structure Config where
  max_vibration_pitch : ℝ
  max_vibration_yaw : ℝ
  max_vibration_height : ℝ
  max_vibration_width : ℝ
  max_vibration_depth : ℝ
  max_detection_range : ℝ
  min_timestamp_offset : ℤ
  max_timestamp_offset : ℤ
  timestamp_sample_len : ℤ

/-- An emitted region of interest
(`tier4_perception_msgs::msg::TrafficMirrorRoi`, flattened).  The `uint32`
pixel fields of the nested `sensor_msgs::RegionOfInterest` are modelled as
integers. -/
structure Roi where
  traffic_mirror_id : ℤ
  x_offset : ℤ
  y_offset : ℤ
  width : ℤ
  height : ℤ
deriving DecidableEq

/-- The `max_vibration_x` margin of `getTrafficMirrorRoi`
(node.cpp:304-305, 328-329): `sin(max_vibration_yaw / 2)` times the corner
depth plus half of `max_vibration_width`. -/
noncomputable def vibrationX (cfg : Config) (z : ℝ) : ℝ :=
  Real.sin (cfg.max_vibration_yaw * 0.5) * z + cfg.max_vibration_width * 0.5

/-- The `max_vibration_y` margin (node.cpp:306-307, 330-331). -/
noncomputable def vibrationY (cfg : Config) (z : ℝ) : ℝ :=
  Real.sin (cfg.max_vibration_pitch * 0.5) * z + cfg.max_vibration_height * 0.5

/-- The `max_vibration_z` margin (node.cpp:308, 332). -/
noncomputable def vibrationZ (cfg : Config) : ℝ :=
  cfg.max_vibration_depth * 0.5

/-- The enlarged top-left corner point in camera coordinates
(node.cpp:300-320): transform the raised top-left point, compute the
vibration margins from its depth, and subtract them (the `z` margin pulls
the corner toward the camera). -/
noncomputable def tlEnlarged (tf : Transform) (lm : Landmark) (cfg : Config) : V3 :=
  ⟨(invApply tf (getTrafficMirrorTopLeft lm)).x -
      vibrationX cfg (invApply tf (getTrafficMirrorTopLeft lm)).z,
   (invApply tf (getTrafficMirrorTopLeft lm)).y -
      vibrationY cfg (invApply tf (getTrafficMirrorTopLeft lm)).z,
   (invApply tf (getTrafficMirrorTopLeft lm)).z - vibrationZ cfg⟩

/-- The enlarged bottom-right corner point in camera coordinates
(node.cpp:323-344): transform the bottom-right point, compute the vibration
margins from its depth, and add `(mx, my, -mz)`. -/
noncomputable def brEnlarged (tf : Transform) (lm : Landmark) (cfg : Config) : V3 :=
  ⟨(invApply tf (getTrafficMirrorBottomRight lm)).x +
      vibrationX cfg (invApply tf (getTrafficMirrorBottomRight lm)).z,
   (invApply tf (getTrafficMirrorBottomRight lm)).y +
      vibrationY cfg (invApply tf (getTrafficMirrorBottomRight lm)).z,
   (invApply tf (getTrafficMirrorBottomRight lm)).z - vibrationZ cfg⟩

/-- The clamped raw pixel of the enlarged top-left corner. -/
noncomputable def tlPixel (tf : Transform) (cam : CameraModel) (lm : Landmark) (cfg : Config) :
    ℝ × ℝ :=
  roundInImageFrame cam (calcRawImagePointFromPoint3D cam (tlEnlarged tf lm cfg))

/-- The clamped raw pixel of the enlarged bottom-right corner. -/
noncomputable def brPixel (tf : Transform) (cam : CameraModel) (lm : Landmark) (cfg : Config) :
    ℝ × ℝ :=
  roundInImageFrame cam (calcRawImagePointFromPoint3D cam (brEnlarged tf lm cfg))

/-- `roi.roi.x_offset` as stored (node.cpp:318): the clamped pixel converted
to the integer message field. -/
noncomputable def roiXOffset (tf : Transform) (cam : CameraModel) (lm : Landmark)
    (cfg : Config) : ℤ :=
  truncR (tlPixel tf cam lm cfg).1

/-- `roi.roi.y_offset` as stored (node.cpp:319). -/
noncomputable def roiYOffset (tf : Transform) (cam : CameraModel) (lm : Landmark)
    (cfg : Config) : ℤ :=
  truncR (tlPixel tf cam lm cfg).2

/-- `roi.roi.width` as stored (node.cpp:342): bottom-right pixel x minus the
already-stored `x_offset`, converted to the integer field. -/
noncomputable def roiWidth (tf : Transform) (cam : CameraModel) (lm : Landmark)
    (cfg : Config) : ℤ :=
  truncR ((brPixel tf cam lm cfg).1 - (roiXOffset tf cam lm cfg : ℝ))

/-- `roi.roi.height` as stored (node.cpp:343). -/
noncomputable def roiHeight (tf : Transform) (cam : CameraModel) (lm : Landmark)
    (cfg : Config) : ℤ :=
  truncR ((brPixel tf cam lm cfg).2 - (roiYOffset tf cam lm cfg : ℝ))

/-- Single-pose `MapBasedDetector::getTrafficMirrorRoi` (node.cpp:291-351).
Fails if either enlarged corner has non-positive depth or if the resulting
box has `width < 1` or `height < 1`; otherwise returns the ROI tagged with
the landmark id. -/
noncomputable def getTrafficMirrorRoi (tf : Transform) (cam : CameraModel) (lm : Landmark)
    (cfg : Config) : Option Roi :=
  if (tlEnlarged tf lm cfg).z ≤ 0 then none
  else if (brEnlarged tf lm cfg).z ≤ 0 then none
  else if roiWidth tf cam lm cfg < 1 ∨ roiHeight tf cam lm cfg < 1 then none
  else some ⟨lm.id, roiXOffset tf cam lm cfg, roiYOffset tf cam lm cfg,
    roiWidth tf cam lm cfg, roiHeight tf cam lm cfg⟩

/-- The aggregation's left edge (node.cpp:373,378): minimum of all
`x_offset`, seeded with `width - 1`. -/
def aggX1 (cam : CameraModel) (rois : List Roi) : ℤ :=
  (rois.map Roi.x_offset).foldl min ((cam.width : ℤ) - 1)

/-- The aggregation's right edge (node.cpp:374,379): maximum of all
`x_offset + width`, seeded with `0`. -/
def aggX2 (rois : List Roi) : ℤ :=
  (rois.map (fun r => r.x_offset + r.width)).foldl max 0

/-- The aggregation's top edge (node.cpp:375,380). -/
def aggY1 (cam : CameraModel) (rois : List Roi) : ℤ :=
  (rois.map Roi.y_offset).foldl min ((cam.height : ℤ) - 1)

/-- The aggregation's bottom edge (node.cpp:376,381). -/
def aggY2 (rois : List Roi) : ℤ :=
  (rois.map (fun r => r.y_offset + r.height)).foldl max 0

/-- Multi-pose `MapBasedDetector::getTrafficMirrorRoi` (node.cpp:353-388;
the C++ overload taking a vector of transforms).  Runs the single-pose
projection once per pose, fails when every pose fails, and otherwise emits
the bounding rectangle of all per-pose ROIs (edge folds seeded with the
image bounds), tagged with the id copied from the first success. -/
noncomputable def getTrafficMirrorRoiAgg (tfs : List Transform) (cam : CameraModel)
    (lm : Landmark) (cfg : Config) : Option Roi :=
  let rois := tfs.filterMap (fun tf => getTrafficMirrorRoi tf cam lm cfg)
  match rois with
  | [] => none
  | r :: rs =>
    some ⟨r.traffic_mirror_id,
      aggX1 cam (r :: rs), aggY1 cam (r :: rs),
      aggX2 (r :: rs) - aggX1 cam (r :: rs), aggY2 (r :: rs) - aggY1 cam (r :: rs)⟩

/-- The landmark yaw used by the visibility filter (node.cpp:480-481):
`atan2` of the map-plane vector from the first point to the last point,
plus `pi/2`, normalized. -/
noncomputable def landmarkYaw (lm : Landmark) : ℝ :=
  normalizeRadian (atan2 (lm.back.y - lm.front.y) (lm.back.x - lm.front.x) + Real.pi / 2)

/-- The camera yaw used by the visibility filter (node.cpp:485-489):
`atan2` of the rotated optical axis (`z`) projected on the map plane,
normalized. -/
noncomputable def cameraYaw (tf : Transform) : ℝ :=
  normalizeRadian (atan2 (rotApply tf ⟨0, 0, 1⟩).y (rotApply tf ⟨0, 0, 1⟩).x)

/-- The per-landmark visibility predicate of
`MapBasedDetector::getVisibleTrafficMirrors` (node.cpp:459-505): the
`subtype` attribute must be present and differ from `"solid"`, and some
candidate pose must pass the distance test, the 40 degree angle test and
the frame-containment test for at least one of the two reference points. -/
noncomputable def isVisibleMirror (poses : List Transform) (cam : CameraModel)
    (cfg : Config) (lm : Landmark) : Prop :=
  (∃ s, lm.subtype = some s ∧ s ≠ "solid") ∧
    ∃ tf ∈ poses,
      isInDistanceRange (getTrafficMirrorCenter lm) tf.origin cfg.max_detection_range ∧
      isInAngleRange (landmarkYaw lm) (cameraYaw tf) (deg2rad 40) ∧
      (isInImageFrame cam (invApply tf (getTrafficMirrorTopLeft lm)) ∨
        isInImageFrame cam (invApply tf (getTrafficMirrorBottomRight lm)))

/-- `MapBasedDetector::getVisibleTrafficMirrors` (node.cpp:453-507): keep,
in store order, the landmarks passing `isVisibleMirror`. -/
noncomputable def getVisibleTrafficMirrors (lms : List Landmark) (poses : List Transform)
    (cam : CameraModel) (cfg : Config) : List Landmark :=
  lms.filter (fun lm => @decide (isVisibleMirror poses cam cfg lm) (Classical.propDecidable _))

/-- The timestamps visited by the sampling loop
`for (auto t = t1; t <= t2; t += interval)` (node.cpp:225): `t1, t1 + d,
..., ` while `t <= t2`, in closed form (times in nanoseconds; the iteration
count is the floor of `(t2 - t1) / interval` plus one). -/
def loopTimes (t1 t2 interval : ℤ) : List ℤ :=
  if interval ≤ 0 ∨ t2 < t1 then []
  else (List.range (((t2 - t1) / interval).toNat + 1)).map (fun k => t1 + (k : ℤ) * interval)

/-- The candidate-pose construction of `cameraInfoCallback`
(node.cpp:218-241), abstracted over the pose source (`getTransform`, an
external transform lookup that can fail): sample the window
`[stamp + min_timestamp_offset, stamp + max_timestamp_offset]` with the
hard-coded interval `0.01 s` (`10000000` ns), keeping every successful
lookup; look up the nominal pose at `stamp` and skip the whole pass
(`none`) when that fails; fall back to the nominal pose as single candidate
when the window produced nothing. -/
def getCandidatePoses {α : Type} (lookup : ℤ → Option α) (stamp : ℤ) (cfg : Config) :
    Option (List α) :=
  let tf_vec := (loopTimes (stamp + cfg.min_timestamp_offset)
    (stamp + cfg.max_timestamp_offset) 10000000).filterMap lookup
  match lookup stamp with
  | none => none
  | some nominal => some (if tf_vec.isEmpty then [nominal] else tf_vec)

/-- Modelled from the spec: the candidate-pose construction as the
specification states it, with the sampling step equal to the configured
`timestamp_sample_len` instead of the hard-coded `0.01 s` (spec 4.4 step 1:
"querying the Pose Source at `t + min_offset, t + min_offset + step, ...,
t + max_offset` (step = `timestamp_sample_len`)"). -/
def getCandidatePosesSpec {α : Type} (lookup : ℤ → Option α) (stamp : ℤ) (cfg : Config) :
    Option (List α) :=
  let tf_vec := (loopTimes (stamp + cfg.min_timestamp_offset)
    (stamp + cfg.max_timestamp_offset) cfg.timestamp_sample_len).filterMap lookup
  match lookup stamp with
  | none => none
  | some nominal => some (if tf_vec.isEmpty then [nominal] else tf_vec)

/-- Pixel-rectangle containment: `R` contains `r`. -/
def containsRoi (R r : Roi) : Prop :=
  R.x_offset ≤ r.x_offset ∧ R.y_offset ≤ r.y_offset ∧
    r.x_offset + r.width ≤ R.x_offset + R.width ∧
    r.y_offset + r.height ≤ R.y_offset + R.height

/-- Coordinate-wise monotonicity of the raw camera projection at equal
depth: moving a camera-frame point right/down moves its raw pixel
right/down.  An ideal pinhole model with non-negative focal lengths and
monotone distortion satisfies this. -/
def MonotoneProj (cam : CameraModel) : Prop :=
  ∀ p q : V3, p.x ≤ q.x → p.y ≤ q.y → p.z = q.z →
    (cam.proj p).1 ≤ (cam.proj q).1 ∧ (cam.proj p).2 ≤ (cam.proj q).2

/-- Modelled from the spec: normalization of an angle into `(-pi, pi]`
(spec 4.1 step 3b writes both yaws "normalized into `(-pi, pi]`"). -/
noncomputable def specNormalize (x : ℝ) : ℝ :=
  x - 2 * Real.pi * (round (x / (2 * Real.pi)) : ℝ)

/-- Modelled from the spec: the landmark yaw of spec 4.1 step 3b,
`atan2` of the map-plane vector `(dx, dy)` from the top-left point to the
bottom-right point, plus `pi/2`, normalized into `(-pi, pi]`. -/
noncomputable def specLandmarkYaw (lm : Landmark) : ℝ :=
  specNormalize (atan2 (lm.back.y - lm.front.y) (lm.back.x - lm.front.x) + Real.pi / 2)

/-- Modelled from the spec: the camera yaw of spec 4.1 step 3b, `atan2` of
the camera forward axis projected onto the map plane, normalized into
`(-pi, pi]`. -/
noncomputable def specCameraYaw (tf : Transform) : ℝ :=
  specNormalize (atan2 (rotApply tf ⟨0, 0, 1⟩).y (rotApply tf ⟨0, 0, 1⟩).x)

/-- Modelled from the spec: the angle test of spec 4.1 step 3b, "the
angular difference (via dot product of unit vectors, `acos`, absolute
value) must be `< 40 degrees`". -/
noncomputable def specAngleTest (lm : Landmark) (tf : Transform) : Prop :=
  |Real.arccos (Real.cos (specLandmarkYaw lm) * Real.cos (specCameraYaw tf) +
      Real.sin (specLandmarkYaw lm) * Real.sin (specCameraYaw tf))| < deg2rad 40

/-- Update only `max_vibration_width`. -/
def setVibWidth (cfg : Config) (v : ℝ) : Config :=
  ⟨cfg.max_vibration_pitch, cfg.max_vibration_yaw, cfg.max_vibration_height, v,
    cfg.max_vibration_depth, cfg.max_detection_range, cfg.min_timestamp_offset,
    cfg.max_timestamp_offset, cfg.timestamp_sample_len⟩

/-- Update only `max_vibration_height`. -/
def setVibHeight (cfg : Config) (v : ℝ) : Config :=
  ⟨cfg.max_vibration_pitch, cfg.max_vibration_yaw, v, cfg.max_vibration_width,
    cfg.max_vibration_depth, cfg.max_detection_range, cfg.min_timestamp_offset,
    cfg.max_timestamp_offset, cfg.timestamp_sample_len⟩

/-- Update only `max_vibration_depth`. -/
def setVibDepth (cfg : Config) (v : ℝ) : Config :=
  ⟨cfg.max_vibration_pitch, cfg.max_vibration_yaw, cfg.max_vibration_height,
    cfg.max_vibration_width, v, cfg.max_detection_range, cfg.min_timestamp_offset,
    cfg.max_timestamp_offset, cfg.timestamp_sample_len⟩

/-- Replace the `height` attribute of a landmark. -/
def setHeightAttr (lm : Landmark) (h : Option ℝ) : Landmark :=
  ⟨lm.id, lm.front, lm.back, h, lm.subtype⟩

/-- Identity rotation. -/
def idM3 : M3 :=
  ⟨1, 0, 0, 0, 1, 0, 0, 0, 1⟩

/-- Identity pose: identity basis, origin at the map origin. -/
def tfId : Transform :=
  ⟨idM3, ⟨0, 0, 0⟩⟩

/-- A concrete monotone test camera: a 10 x 10 image whose raw projection
simply reads off the camera-frame x and y coordinates. -/
noncomputable def camP : CameraModel :=
  ⟨10, 10, fun p => (p.x, p.y)⟩

/-- Zero-vibration configuration with a 50 m detection range. -/
noncomputable def cfg0 : Config :=
  ⟨0, 0, 0, 0, 0, 50, 0, 0, 10000000⟩

/-- Configuration for the timestamp-sampling bug: window `[t, t + 0.05 s]`
with `timestamp_sample_len = 0.05 s` (in nanoseconds). -/
noncomputable def cfg4 : Config :=
  ⟨0, 0, 0, 0, 0, 50, 0, 50000000, 50000000⟩

/-- `cfg0` with `max_vibration_depth` raised to `20`. -/
noncomputable def cfgD : Config :=
  setVibDepth cfg0 20

/-- A landmark projecting to a proper box under `camP` and `tfId`. -/
noncomputable def lmOk : Landmark :=
  ⟨1, ⟨0, 0, 5⟩, ⟨3, 4, 5⟩, none, some "mirror"⟩

/-- A landmark visible from `tfId` under `camP` and `cfg0`. -/
noncomputable def lmVis : Landmark :=
  ⟨2, ⟨5, 2, 1⟩, ⟨5, 0, 1⟩, none, some "mirror"⟩

/-- A landmark with subtype "solid". -/
noncomputable def lmSolid : Landmark :=
  ⟨3, ⟨5, 2, 1⟩, ⟨5, 0, 1⟩, none, some "solid"⟩

/-- The ROI `getTrafficMirrorRoi` produces for `tfId`, `camP`, `lmOk`,
`cfg0`. -/
def roiOk : Roi :=
  ⟨1, 0, 0, 3, 4⟩

/-! ### Basic lemmas about truncation toward zero and edge folds -/

lemma truncR_lt_one {x : ℝ} (h : x < 1) : truncR x < 1 := by
  unfold truncR
  split_ifs with h0
  · exact Int.floor_lt.mpr (by exact_mod_cast h)
  · have hx : x ≤ 0 := le_of_lt (lt_of_not_ge h0)
    have : (⌈x⌉ : ℤ) ≤ 0 := Int.ceil_le.mpr (by exact_mod_cast hx)
    exact lt_of_le_of_lt this one_pos

lemma one_le_truncR_iff {x : ℝ} : 1 ≤ truncR x ↔ 1 ≤ x := by
  constructor
  · intro h
    by_contra hx
    exact absurd (truncR_lt_one (lt_of_not_ge hx)) (not_lt.mpr h)
  · intro h
    rw [truncR, if_pos (le_trans zero_le_one h)]
    exact Int.le_floor.mpr (by exact_mod_cast h)

lemma truncR_nonneg {x : ℝ} (h : 0 ≤ x) : 0 ≤ truncR x := by
  rw [truncR, if_pos h]
  exact Int.floor_nonneg.mpr h

lemma truncR_eq_floor {x : ℝ} (h : 0 ≤ x) : truncR x = ⌊x⌋ := by
  rw [truncR, if_pos h]

lemma truncR_mono {x y : ℝ} (h : x ≤ y) : truncR x ≤ truncR y := by
  unfold truncR
  split_ifs with hx hy hy
  · exact Int.floor_le_floor h
  · exact absurd (le_trans hx h) hy
  · have : (⌈x⌉ : ℤ) ≤ 0 := Int.ceil_le.mpr (by exact_mod_cast le_of_lt (lt_of_not_ge hx))
    exact le_trans this (Int.floor_nonneg.mpr hy)
  · exact Int.ceil_le_ceil h

lemma foldl_min_mem (s : ℤ) (l : List ℤ) : l.foldl min s ∈ s :: l := by
  induction l generalizing s with
  | nil => simp
  | cons a l ih =>
    have h := ih (min s a)
    simp only [List.foldl_cons]
    rcases List.mem_cons.mp h with h1 | h1
    · rcases min_choice s a with h2 | h2 <;> rw [h1, h2] <;> simp
    · simp [h1]

lemma foldl_min_le_init (s : ℤ) (l : List ℤ) : l.foldl min s ≤ s := by
  induction l generalizing s with
  | nil => simp
  | cons a l ih =>
    exact le_trans (ih (min s a)) (min_le_left s a)

lemma foldl_min_le_mem {a : ℤ} {l : List ℤ} (s : ℤ) (h : a ∈ l) : l.foldl min s ≤ a := by
  induction l generalizing s with
  | nil => cases h
  | cons b l ih =>
    simp only [List.foldl_cons]
    rcases List.mem_cons.mp h with h1 | h1
    · exact le_trans (foldl_min_le_init (min s b) l) (h1 ▸ min_le_right s b)
    · exact ih (min s b) h1

lemma foldl_max_mem (s : ℤ) (l : List ℤ) : l.foldl max s ∈ s :: l := by
  induction l generalizing s with
  | nil => simp
  | cons a l ih =>
    have h := ih (max s a)
    simp only [List.foldl_cons]
    rcases List.mem_cons.mp h with h1 | h1
    · rcases max_choice s a with h2 | h2 <;> rw [h1, h2] <;> simp
    · simp [h1]

lemma le_foldl_max_init (s : ℤ) (l : List ℤ) : s ≤ l.foldl max s := by
  induction l generalizing s with
  | nil => simp
  | cons a l ih =>
    exact le_trans (le_max_left s a) (ih (max s a))

lemma mem_le_foldl_max {a : ℤ} {l : List ℤ} (s : ℤ) (h : a ∈ l) : a ≤ l.foldl max s := by
  induction l generalizing s with
  | nil => cases h
  | cons b l ih =>
    simp only [List.foldl_cons]
    rcases List.mem_cons.mp h with h1 | h1
    · exact le_trans (h1 ▸ le_max_right s b) (le_foldl_max_init (max s b) l)
    · exact ih (max s b) h1

lemma foldl_min_le_foldl_min {s1 s2 : ℤ} {l1 l2 : List ℤ} (hs : s2 ≤ s1)
    (h : ∀ a ∈ l1, ∃ b ∈ l2, b ≤ a) : l2.foldl min s2 ≤ l1.foldl min s1 := by
  rcases List.mem_cons.mp (foldl_min_mem s1 l1) with h1 | h1
  · rw [h1]
    exact le_trans (foldl_min_le_init s2 l2) hs
  · obtain ⟨b, hb, hba⟩ := h _ h1
    exact le_trans (foldl_min_le_mem s2 hb) hba

lemma foldl_max_le_foldl_max {s1 s2 : ℤ} {l1 l2 : List ℤ} (hs : s1 ≤ s2)
    (h : ∀ a ∈ l1, ∃ b ∈ l2, a ≤ b) : l1.foldl max s1 ≤ l2.foldl max s2 := by
  rcases List.mem_cons.mp (foldl_max_mem s1 l1) with h1 | h1
  · rw [h1]
    exact le_trans hs (le_foldl_max_init s2 l2)
  · obtain ⟨b, hb, hba⟩ := h _ h1
    exact le_trans hba (mem_le_foldl_max s2 hb)

/-! ### Characterization and bounds of the single-pose projection -/

lemma getRoi_eq_some_iff {tf : Transform} {cam : CameraModel} {lm : Landmark}
    {cfg : Config} {r : Roi} :
    getTrafficMirrorRoi tf cam lm cfg = some r ↔
      0 < (tlEnlarged tf lm cfg).z ∧ 0 < (brEnlarged tf lm cfg).z ∧
      1 ≤ roiWidth tf cam lm cfg ∧ 1 ≤ roiHeight tf cam lm cfg ∧
      r = ⟨lm.id, roiXOffset tf cam lm cfg, roiYOffset tf cam lm cfg,
        roiWidth tf cam lm cfg, roiHeight tf cam lm cfg⟩ := by
  unfold getTrafficMirrorRoi
  split_ifs with h1 h2 h3
  · exact iff_of_false (by simp) (fun h => absurd h1 (not_le.mpr h.1))
  · exact iff_of_false (by simp) (fun h => absurd h2 (not_le.mpr h.2.1))
  · refine iff_of_false (by simp) (fun h => ?_)
    rcases h3 with h3 | h3
    · exact absurd h3 (not_lt.mpr h.2.2.1)
    · exact absurd h3 (not_lt.mpr h.2.2.2.1)
  · push_neg at h1 h2 h3
    simp only [Option.some_inj]
    constructor
    · intro h
      exact ⟨h1, h2, h3.1, h3.2, h.symm⟩
    · intro h
      exact h.2.2.2.2.symm

lemma tlPixel_bounds (tf : Transform) (cam : CameraModel) (lm : Landmark) (cfg : Config) :
    0 ≤ (tlPixel tf cam lm cfg).1 ∧ (tlPixel tf cam lm cfg).1 ≤ max ((cam.width : ℝ) - 1) 0 ∧
    0 ≤ (tlPixel tf cam lm cfg).2 ∧ (tlPixel tf cam lm cfg).2 ≤ max ((cam.height : ℝ) - 1) 0 := by
  unfold tlPixel roundInImageFrame
  refine ⟨le_max_right _ _, max_le_max (min_le_right _ _) le_rfl,
    le_max_right _ _, max_le_max (min_le_right _ _) le_rfl⟩

lemma brPixel_bounds (tf : Transform) (cam : CameraModel) (lm : Landmark) (cfg : Config) :
    0 ≤ (brPixel tf cam lm cfg).1 ∧ (brPixel tf cam lm cfg).1 ≤ max ((cam.width : ℝ) - 1) 0 ∧
    0 ≤ (brPixel tf cam lm cfg).2 ∧ (brPixel tf cam lm cfg).2 ≤ max ((cam.height : ℝ) - 1) 0 := by
  unfold brPixel roundInImageFrame
  refine ⟨le_max_right _ _, max_le_max (min_le_right _ _) le_rfl,
    le_max_right _ _, max_le_max (min_le_right _ _) le_rfl⟩

lemma roiXOffset_nonneg (tf : Transform) (cam : CameraModel) (lm : Landmark) (cfg : Config) :
    0 ≤ roiXOffset tf cam lm cfg :=
  truncR_nonneg (tlPixel_bounds tf cam lm cfg).1

lemma roiYOffset_nonneg (tf : Transform) (cam : CameraModel) (lm : Landmark) (cfg : Config) :
    0 ≤ roiYOffset tf cam lm cfg :=
  truncR_nonneg (tlPixel_bounds tf cam lm cfg).2.2.1

/-- On the success path the stored box satisfies all pixel bounds: the
offsets are non-negative, the extents are at least one, edge sums stay at
or below `width - 1` / `height - 1`, the offsets themselves stay at or
below `width - 1` / `height - 1`, and the id is the landmark id. -/
lemma roi_bounds {tf : Transform} {cam : CameraModel} {lm : Landmark} {cfg : Config}
    {r : Roi} (h : getTrafficMirrorRoi tf cam lm cfg = some r) :
    0 ≤ r.x_offset ∧ 0 ≤ r.y_offset ∧ 1 ≤ r.width ∧ 1 ≤ r.height ∧
    r.x_offset + r.width ≤ (cam.width : ℤ) - 1 ∧ r.y_offset + r.height ≤ (cam.height : ℤ) - 1 ∧
    r.x_offset ≤ (cam.width : ℤ) - 1 ∧ r.y_offset ≤ (cam.height : ℤ) - 1 ∧
    r.traffic_mirror_id = lm.id := by
  obtain ⟨hz1, hz2, hw, hh, hr⟩ := getRoi_eq_some_iff.mp h
  subst hr
  have htl := tlPixel_bounds tf cam lm cfg
  have hbr := brPixel_bounds tf cam lm cfg
  have hxo : 0 ≤ roiXOffset tf cam lm cfg := roiXOffset_nonneg tf cam lm cfg
  have hyo : 0 ≤ roiYOffset tf cam lm cfg := roiYOffset_nonneg tf cam lm cfg
  -- the x dimension
  have hwx : (1 : ℝ) ≤ (brPixel tf cam lm cfg).1 - (roiXOffset tf cam lm cfg : ℝ) :=
    one_le_truncR_iff.mp hw
  have hbx1 : (1 : ℝ) ≤ (brPixel tf cam lm cfg).1 := by
    have : (0 : ℝ) ≤ (roiXOffset tf cam lm cfg : ℝ) := by exact_mod_cast hxo
    linarith
  have hwpos : (1 : ℝ) ≤ max ((cam.width : ℝ) - 1) 0 := le_trans hbx1 hbr.2.1
  have hwposx : (1 : ℝ) ≤ (cam.width : ℝ) - 1 := by
    rcases max_choice ((cam.width : ℝ) - 1) 0 with hmx | hmx
    · rw [hmx] at hwpos; exact hwpos
    · rw [hmx] at hwpos; linarith
  have hmaxw : max ((cam.width : ℝ) - 1) 0 = (cam.width : ℝ) - 1 :=
    max_eq_left (by linarith)
  have hfloorw : (⌊(brPixel tf cam lm cfg).1⌋ : ℤ) ≤ (cam.width : ℤ) - 1 := by
    have hble : (brPixel tf cam lm cfg).1 ≤ ((cam.width : ℤ) - 1 : ℤ) := by
      push_cast
      rw [hmaxw] at hbr
      exact hbr.2.1
    exact le_trans (Int.floor_le_floor hble) (le_of_eq (Int.floor_intCast _))
  have hsum : roiXOffset tf cam lm cfg + roiWidth tf cam lm cfg =
      ⌊(brPixel tf cam lm cfg).1⌋ := by
    have h0 : (0 : ℝ) ≤ (brPixel tf cam lm cfg).1 - (roiXOffset tf cam lm cfg : ℝ) := by
      linarith
    rw [roiWidth, truncR_eq_floor h0, Int.floor_sub_int]
    ring
  have hxw : roiXOffset tf cam lm cfg + roiWidth tf cam lm cfg ≤ (cam.width : ℤ) - 1 := by
    rw [hsum]; exact hfloorw
  have hxle : roiXOffset tf cam lm cfg ≤ (cam.width : ℤ) - 1 := by
    have htle : (tlPixel tf cam lm cfg).1 ≤ ((cam.width : ℤ) - 1 : ℤ) := by
      push_cast
      rw [hmaxw] at htl
      exact htl.2.1
    rw [roiXOffset, truncR_eq_floor htl.1]
    exact le_trans (Int.floor_le_floor htle) (le_of_eq (Int.floor_intCast _))
  -- the y dimension
  have hwy : (1 : ℝ) ≤ (brPixel tf cam lm cfg).2 - (roiYOffset tf cam lm cfg : ℝ) :=
    one_le_truncR_iff.mp hh
  have hby1 : (1 : ℝ) ≤ (brPixel tf cam lm cfg).2 := by
    have : (0 : ℝ) ≤ (roiYOffset tf cam lm cfg : ℝ) := by exact_mod_cast hyo
    linarith
  have hhpos : (1 : ℝ) ≤ max ((cam.height : ℝ) - 1) 0 := le_trans hby1 hbr.2.2.2
  have hhposy : (1 : ℝ) ≤ (cam.height : ℝ) - 1 := by
    rcases max_choice ((cam.height : ℝ) - 1) 0 with hmy | hmy
    · rw [hmy] at hhpos; exact hhpos
    · rw [hmy] at hhpos; linarith
  have hmaxh : max ((cam.height : ℝ) - 1) 0 = (cam.height : ℝ) - 1 :=
    max_eq_left (by linarith)
  have hfloorh : (⌊(brPixel tf cam lm cfg).2⌋ : ℤ) ≤ (cam.height : ℤ) - 1 := by
    have hble : (brPixel tf cam lm cfg).2 ≤ ((cam.height : ℤ) - 1 : ℤ) := by
      push_cast
      rw [hmaxh] at hbr
      exact hbr.2.2.2
    exact le_trans (Int.floor_le_floor hble) (le_of_eq (Int.floor_intCast _))
  have hsumy : roiYOffset tf cam lm cfg + roiHeight tf cam lm cfg =
      ⌊(brPixel tf cam lm cfg).2⌋ := by
    have h0 : (0 : ℝ) ≤ (brPixel tf cam lm cfg).2 - (roiYOffset tf cam lm cfg : ℝ) := by
      linarith
    rw [roiHeight, truncR_eq_floor h0, Int.floor_sub_int]
    ring
  have hyh : roiYOffset tf cam lm cfg + roiHeight tf cam lm cfg ≤ (cam.height : ℤ) - 1 := by
    rw [hsumy]; exact hfloorh
  have hyle : roiYOffset tf cam lm cfg ≤ (cam.height : ℤ) - 1 := by
    have htle : (tlPixel tf cam lm cfg).2 ≤ ((cam.height : ℤ) - 1 : ℤ) := by
      push_cast
      rw [hmaxh] at htl
      exact htl.2.2.2
    rw [roiYOffset, truncR_eq_floor htl.2.2.1]
    exact le_trans (Int.floor_le_floor htle) (le_of_eq (Int.floor_intCast _))
  exact ⟨hxo, hyo, hw, hh, hxw, hyh, hxle, hyle, rfl⟩

/-! ### Aggregation lemmas -/

lemma agg_unfold (tfs : List Transform) (cam : CameraModel) (lm : Landmark) (cfg : Config) :
    getTrafficMirrorRoiAgg tfs cam lm cfg =
      match tfs.filterMap (fun tf => getTrafficMirrorRoi tf cam lm cfg) with
      | [] => none
      | r :: rs =>
        some ⟨r.traffic_mirror_id,
          aggX1 cam (r :: rs), aggY1 cam (r :: rs),
          aggX2 (r :: rs) - aggX1 cam (r :: rs), aggY2 (r :: rs) - aggY1 cam (r :: rs)⟩ :=
  rfl

lemma mem_rois_success {tfs : List Transform} {cam : CameraModel} {lm : Landmark}
    {cfg : Config} {r : Roi}
    (h : r ∈ tfs.filterMap (fun tf => getTrafficMirrorRoi tf cam lm cfg)) :
    ∃ tf ∈ tfs, getTrafficMirrorRoi tf cam lm cfg = some r :=
  List.mem_filterMap.mp h

lemma aggX1_le_mem {cam : CameraModel} {rois : List Roi} {r : Roi} (h : r ∈ rois) :
    aggX1 cam rois ≤ r.x_offset :=
  foldl_min_le_mem _ (List.mem_map_of_mem Roi.x_offset h)

lemma aggY1_le_mem {cam : CameraModel} {rois : List Roi} {r : Roi} (h : r ∈ rois) :
    aggY1 cam rois ≤ r.y_offset :=
  foldl_min_le_mem _ (List.mem_map_of_mem Roi.y_offset h)

lemma mem_le_aggX2 {rois : List Roi} {r : Roi} (h : r ∈ rois) :
    r.x_offset + r.width ≤ aggX2 rois :=
  mem_le_foldl_max _ (List.mem_map_of_mem (fun r => r.x_offset + r.width) h)

lemma mem_le_aggY2 {rois : List Roi} {r : Roi} (h : r ∈ rois) :
    r.y_offset + r.height ≤ aggY2 rois :=
  mem_le_foldl_max _ (List.mem_map_of_mem (fun r => r.y_offset + r.height) h)

/-! ### Claim theorems (structural properties of the projector/aggregator) -/

/-- Claim C6: for a non-empty pose sequence the multi-pose aggregation
returns a ROI exactly when the single-pose projection succeeds for at least
one pose, and the returned rectangle contains the single-pose ROI of every
pose whose projection individually succeeds. -/
theorem claim_C6_aggregation (tfs : List Transform) (cam : CameraModel) (lm : Landmark)
    (cfg : Config) (hne : tfs ≠ []) :
    ((∃ R, getTrafficMirrorRoiAgg tfs cam lm cfg = some R) ↔
      ∃ tf ∈ tfs, ∃ r, getTrafficMirrorRoi tf cam lm cfg = some r) ∧
    (∀ R, getTrafficMirrorRoiAgg tfs cam lm cfg = some R →
      ∀ tf ∈ tfs, ∀ r, getTrafficMirrorRoi tf cam lm cfg = some r → containsRoi R r) := by
  constructor
  · constructor
    · rintro ⟨R, hR⟩
      rw [agg_unfold] at hR
      rcases hl : tfs.filterMap (fun tf => getTrafficMirrorRoi tf cam lm cfg) with _ | ⟨r0, rs⟩
      · rw [hl] at hR; cases hR
      · obtain ⟨tf0, htf0, h0⟩ := mem_rois_success (hl ▸ List.mem_cons_self r0 rs)
        exact ⟨tf0, htf0, r0, h0⟩
    · rintro ⟨tf0, htf0, r, hr⟩
      have hmem : r ∈ tfs.filterMap (fun tf => getTrafficMirrorRoi tf cam lm cfg) :=
        List.mem_filterMap.mpr ⟨tf0, htf0, hr⟩
      rw [agg_unfold]
      rcases hl : tfs.filterMap (fun tf => getTrafficMirrorRoi tf cam lm cfg) with _ | ⟨r0, rs⟩
      · rw [hl] at hmem; cases hmem
      · exact ⟨_, rfl⟩
  · intro R hR tf0 htf0 r hr
    rw [agg_unfold] at hR
    rcases hl : tfs.filterMap (fun tf => getTrafficMirrorRoi tf cam lm cfg) with _ | ⟨r0, rs⟩
    · rw [hl] at hR; cases hR
    · rw [hl] at hR
      simp only [Option.some_inj] at hR
      have hmem : r ∈ r0 :: rs := hl ▸ List.mem_filterMap.mpr ⟨tf0, htf0, hr⟩
      have h1 : aggX1 cam (r0 :: rs) ≤ r.x_offset := aggX1_le_mem hmem
      have h2 : aggY1 cam (r0 :: rs) ≤ r.y_offset := aggY1_le_mem hmem
      have h3 := mem_le_aggX2 hmem
      have h4 := mem_le_aggY2 hmem
      subst hR
      refine ⟨h1, h2, ?_, ?_⟩
      · show r.x_offset + r.width ≤
          aggX1 cam (r0 :: rs) + (aggX2 (r0 :: rs) - aggX1 cam (r0 :: rs))
        omega
      · show r.y_offset + r.height ≤
          aggY1 cam (r0 :: rs) + (aggY2 (r0 :: rs) - aggY1 cam (r0 :: rs))
        omega

/-- The aggregation of a one-element pose list returns the single-pose ROI
unchanged. -/
lemma agg_singleton {tf : Transform} {cam : CameraModel} {lm : Landmark}
    {cfg : Config} {r : Roi} (h : getTrafficMirrorRoi tf cam lm cfg = some r) :
    getTrafficMirrorRoiAgg [tf] cam lm cfg = some r := by
  have hl : ([tf] : List Transform).filterMap (fun tf => getTrafficMirrorRoi tf cam lm cfg)
      = [r] := by
    simp [List.filterMap_cons, h]
  rw [agg_unfold, hl]
  obtain ⟨hx, hy, hw, hh, _, _, hxle, hyle, _⟩ := roi_bounds h
  have hX1 : aggX1 cam [r] = r.x_offset := by
    show min ((cam.width : ℤ) - 1) r.x_offset = r.x_offset
    exact min_eq_right hxle
  have hY1 : aggY1 cam [r] = r.y_offset := by
    show min ((cam.height : ℤ) - 1) r.y_offset = r.y_offset
    exact min_eq_right hyle
  have hX2 : aggX2 [r] = r.x_offset + r.width := by
    show max 0 (r.x_offset + r.width) = r.x_offset + r.width
    exact max_eq_right (by omega)
  have hY2 : aggY2 [r] = r.y_offset + r.height := by
    show max 0 (r.y_offset + r.height) = r.y_offset + r.height
    exact max_eq_right (by omega)
  show some ⟨r.traffic_mirror_id, aggX1 cam [r], aggY1 cam [r],
    aggX2 [r] - aggX1 cam [r], aggY2 [r] - aggY1 cam [r]⟩ = some r
  rw [hX1, hY1, hX2, hY2]
  have hw2 : r.x_offset + r.width - r.x_offset = r.width := by omega
  have hh2 : r.y_offset + r.height - r.y_offset = r.height := by omega
  rw [hw2, hh2]

/-- Claim C9: if the single-pose projection succeeds for pose `p`, the
multi-pose aggregation on the one-element pose sequence `[p]` succeeds and
returns exactly the same ROI (same id, offsets and extents): the image-bound
seeding of the aggregation never enlarges or shifts a single-sample
result. -/
theorem claim_C9_singleton_agg (tf : Transform) (cam : CameraModel) (lm : Landmark)
    (cfg : Config) (r : Roi) (h : getTrafficMirrorRoi tf cam lm cfg = some r) :
    getTrafficMirrorRoiAgg [tf] cam lm cfg = some r :=
  agg_singleton h

/-! ### Monotone growth of the projected box (used for the amended claim C3) -/

lemma clamp_mono {cam : CameraModel} {a b : ℝ × ℝ} (h1 : a.1 ≤ b.1) (h2 : a.2 ≤ b.2) :
    (roundInImageFrame cam a).1 ≤ (roundInImageFrame cam b).1 ∧
    (roundInImageFrame cam a).2 ≤ (roundInImageFrame cam b).2 :=
  ⟨max_le_max (min_le_min h1 le_rfl) le_rfl, max_le_max (min_le_min h2 le_rfl) le_rfl⟩

/-- If a configuration change moves the enlarged top-left corner left/up and
the enlarged bottom-right corner right/down at unchanged depths, then, for a
coordinate-monotone camera, a successful projection stays successful and its
box only grows. -/
lemma roi_grow {tf : Transform} {cam : CameraModel} {lm : Landmark} {cfg cfg2 : Config}
    {r : Roi} (hmono : MonotoneProj cam)
    (htlx : (tlEnlarged tf lm cfg2).x ≤ (tlEnlarged tf lm cfg).x)
    (htly : (tlEnlarged tf lm cfg2).y ≤ (tlEnlarged tf lm cfg).y)
    (htlz : (tlEnlarged tf lm cfg2).z = (tlEnlarged tf lm cfg).z)
    (hbrx : (brEnlarged tf lm cfg).x ≤ (brEnlarged tf lm cfg2).x)
    (hbry : (brEnlarged tf lm cfg).y ≤ (brEnlarged tf lm cfg2).y)
    (hbrz : (brEnlarged tf lm cfg).z = (brEnlarged tf lm cfg2).z)
    (h : getTrafficMirrorRoi tf cam lm cfg = some r) :
    ∃ r2, getTrafficMirrorRoi tf cam lm cfg2 = some r2 ∧ containsRoi r2 r := by
  obtain ⟨hz1, hz2, hw, hh, hr⟩ := getRoi_eq_some_iff.mp h
  have hproj_tl := hmono (tlEnlarged tf lm cfg2) (tlEnlarged tf lm cfg) htlx htly htlz
  have hproj_br := hmono (brEnlarged tf lm cfg) (brEnlarged tf lm cfg2) hbrx hbry hbrz
  have htlp : (tlPixel tf cam lm cfg2).1 ≤ (tlPixel tf cam lm cfg).1 ∧
      (tlPixel tf cam lm cfg2).2 ≤ (tlPixel tf cam lm cfg).2 :=
    clamp_mono hproj_tl.1 hproj_tl.2
  have hbrp : (brPixel tf cam lm cfg).1 ≤ (brPixel tf cam lm cfg2).1 ∧
      (brPixel tf cam lm cfg).2 ≤ (brPixel tf cam lm cfg2).2 :=
    clamp_mono hproj_br.1 hproj_br.2
  have hX : roiXOffset tf cam lm cfg2 ≤ roiXOffset tf cam lm cfg := truncR_mono htlp.1
  have hY : roiYOffset tf cam lm cfg2 ≤ roiYOffset tf cam lm cfg := truncR_mono htlp.2
  have hargx : (brPixel tf cam lm cfg).1 - (roiXOffset tf cam lm cfg : ℝ) ≤
      (brPixel tf cam lm cfg2).1 - (roiXOffset tf cam lm cfg2 : ℝ) := by
    have : (roiXOffset tf cam lm cfg2 : ℝ) ≤ (roiXOffset tf cam lm cfg : ℝ) := by
      exact_mod_cast hX
    linarith [hbrp.1]
  have hargy : (brPixel tf cam lm cfg).2 - (roiYOffset tf cam lm cfg : ℝ) ≤
      (brPixel tf cam lm cfg2).2 - (roiYOffset tf cam lm cfg2 : ℝ) := by
    have : (roiYOffset tf cam lm cfg2 : ℝ) ≤ (roiYOffset tf cam lm cfg : ℝ) := by
      exact_mod_cast hY
    linarith [hbrp.2]
  have hW : roiWidth tf cam lm cfg ≤ roiWidth tf cam lm cfg2 := truncR_mono hargx
  have hH : roiHeight tf cam lm cfg ≤ roiHeight tf cam lm cfg2 := truncR_mono hargy
  have hw2 : 1 ≤ roiWidth tf cam lm cfg2 := le_trans hw hW
  have hh2 : 1 ≤ roiHeight tf cam lm cfg2 := le_trans hh hH
  refine ⟨⟨lm.id, roiXOffset tf cam lm cfg2, roiYOffset tf cam lm cfg2,
    roiWidth tf cam lm cfg2, roiHeight tf cam lm cfg2⟩,
    getRoi_eq_some_iff.mpr ⟨htlz ▸ hz1, hbrz ▸ hz2, hw2, hh2, rfl⟩, ?_⟩
  -- containment of the smaller box in the grown one
  have hfloorx : roiXOffset tf cam lm cfg + roiWidth tf cam lm cfg =
      ⌊(brPixel tf cam lm cfg).1⌋ := by
    have h0 : (0 : ℝ) ≤ (brPixel tf cam lm cfg).1 - (roiXOffset tf cam lm cfg : ℝ) := by
      have := one_le_truncR_iff.mp hw
      linarith
    rw [roiWidth, truncR_eq_floor h0, Int.floor_sub_int]
    ring
  have hfloorx2 : roiXOffset tf cam lm cfg2 + roiWidth tf cam lm cfg2 =
      ⌊(brPixel tf cam lm cfg2).1⌋ := by
    have h0 : (0 : ℝ) ≤ (brPixel tf cam lm cfg2).1 - (roiXOffset tf cam lm cfg2 : ℝ) := by
      have := one_le_truncR_iff.mp hw2
      linarith
    rw [roiWidth, truncR_eq_floor h0, Int.floor_sub_int]
    ring
  have hfloory : roiYOffset tf cam lm cfg + roiHeight tf cam lm cfg =
      ⌊(brPixel tf cam lm cfg).2⌋ := by
    have h0 : (0 : ℝ) ≤ (brPixel tf cam lm cfg).2 - (roiYOffset tf cam lm cfg : ℝ) := by
      have := one_le_truncR_iff.mp hh
      linarith
    rw [roiHeight, truncR_eq_floor h0, Int.floor_sub_int]
    ring
  have hfloory2 : roiYOffset tf cam lm cfg2 + roiHeight tf cam lm cfg2 =
      ⌊(brPixel tf cam lm cfg2).2⌋ := by
    have h0 : (0 : ℝ) ≤ (brPixel tf cam lm cfg2).2 - (roiYOffset tf cam lm cfg2 : ℝ) := by
      have := one_le_truncR_iff.mp hh2
      linarith
    rw [roiHeight, truncR_eq_floor h0, Int.floor_sub_int]
    ring
  have hbx : ⌊(brPixel tf cam lm cfg).1⌋ ≤ ⌊(brPixel tf cam lm cfg2).1⌋ :=
    Int.floor_le_floor hbrp.1
  have hby : ⌊(brPixel tf cam lm cfg).2⌋ ≤ ⌊(brPixel tf cam lm cfg2).2⌋ :=
    Int.floor_le_floor hbrp.2
  subst hr
  refine ⟨hX, hY, ?_, ?_⟩
  · show roiXOffset tf cam lm cfg + roiWidth tf cam lm cfg ≤
      roiXOffset tf cam lm cfg2 + roiWidth tf cam lm cfg2
    omega
  · show roiYOffset tf cam lm cfg + roiHeight tf cam lm cfg ≤
      roiYOffset tf cam lm cfg2 + roiHeight tf cam lm cfg2
    omega

/-- Per-pose growth lifts to the multi-pose aggregation. -/
lemma agg_grow {tfs : List Transform} {cam : CameraModel} {lm : Landmark}
    {cfg cfg2 : Config}
    (hgrow : ∀ tf r, getTrafficMirrorRoi tf cam lm cfg = some r →
      ∃ r2, getTrafficMirrorRoi tf cam lm cfg2 = some r2 ∧ containsRoi r2 r)
    {R : Roi} (h : getTrafficMirrorRoiAgg tfs cam lm cfg = some R) :
    ∃ R2, getTrafficMirrorRoiAgg tfs cam lm cfg2 = some R2 ∧ containsRoi R2 R := by
  rw [agg_unfold] at h
  rcases hl : tfs.filterMap (fun tf => getTrafficMirrorRoi tf cam lm cfg) with _ | ⟨r0, rs⟩
  · rw [hl] at h; cases h
  · rw [hl] at h
    simp only [Option.some_inj] at h
    -- the grown run also has at least one success
    obtain ⟨tf0, htf0, h0⟩ := mem_rois_success (hl ▸ List.mem_cons_self r0 rs)
    obtain ⟨r20, hr20, _⟩ := hgrow tf0 r0 h0
    have hmem20 : r20 ∈ tfs.filterMap (fun tf => getTrafficMirrorRoi tf cam lm cfg2) :=
      List.mem_filterMap.mpr ⟨tf0, htf0, hr20⟩
    rcases hl2 : tfs.filterMap (fun tf => getTrafficMirrorRoi tf cam lm cfg2) with _ | ⟨q0, qs⟩
    · rw [hl2] at hmem20; cases hmem20
    · refine ⟨⟨q0.traffic_mirror_id, aggX1 cam (q0 :: qs), aggY1 cam (q0 :: qs),
        aggX2 (q0 :: qs) - aggX1 cam (q0 :: qs), aggY2 (q0 :: qs) - aggY1 cam (q0 :: qs)⟩,
        by rw [agg_unfold, hl2], ?_⟩
      -- each small success is dominated by some grown success
      have hdommin : ∀ a ∈ (r0 :: rs).map Roi.x_offset,
          ∃ b ∈ (q0 :: qs).map Roi.x_offset, b ≤ a := by
        intro a ha
        obtain ⟨rr, hrr, hra⟩ := List.mem_map.mp ha
        obtain ⟨tfr, htfr, hsr⟩ := mem_rois_success (hl ▸ hrr)
        obtain ⟨r2, hr2, hc⟩ := hgrow tfr rr hsr
        have : r2 ∈ q0 :: qs := hl2 ▸ List.mem_filterMap.mpr ⟨tfr, htfr, hr2⟩
        exact ⟨r2.x_offset, List.mem_map_of_mem Roi.x_offset this, hra ▸ hc.1⟩
      have hdomminy : ∀ a ∈ (r0 :: rs).map Roi.y_offset,
          ∃ b ∈ (q0 :: qs).map Roi.y_offset, b ≤ a := by
        intro a ha
        obtain ⟨rr, hrr, hra⟩ := List.mem_map.mp ha
        obtain ⟨tfr, htfr, hsr⟩ := mem_rois_success (hl ▸ hrr)
        obtain ⟨r2, hr2, hc⟩ := hgrow tfr rr hsr
        have : r2 ∈ q0 :: qs := hl2 ▸ List.mem_filterMap.mpr ⟨tfr, htfr, hr2⟩
        exact ⟨r2.y_offset, List.mem_map_of_mem Roi.y_offset this, hra ▸ hc.2.1⟩
      have hdommax : ∀ a ∈ (r0 :: rs).map (fun r => r.x_offset + r.width),
          ∃ b ∈ (q0 :: qs).map (fun r => r.x_offset + r.width), a ≤ b := by
        intro a ha
        obtain ⟨rr, hrr, hra⟩ := List.mem_map.mp ha
        obtain ⟨tfr, htfr, hsr⟩ := mem_rois_success (hl ▸ hrr)
        obtain ⟨r2, hr2, hc⟩ := hgrow tfr rr hsr
        have : r2 ∈ q0 :: qs := hl2 ▸ List.mem_filterMap.mpr ⟨tfr, htfr, hr2⟩
        exact ⟨r2.x_offset + r2.width,
          List.mem_map_of_mem (fun r => r.x_offset + r.width) this, hra ▸ hc.2.2.1⟩
      have hdommaxy : ∀ a ∈ (r0 :: rs).map (fun r => r.y_offset + r.height),
          ∃ b ∈ (q0 :: qs).map (fun r => r.y_offset + r.height), a ≤ b := by
        intro a ha
        obtain ⟨rr, hrr, hra⟩ := List.mem_map.mp ha
        obtain ⟨tfr, htfr, hsr⟩ := mem_rois_success (hl ▸ hrr)
        obtain ⟨r2, hr2, hc⟩ := hgrow tfr rr hsr
        have : r2 ∈ q0 :: qs := hl2 ▸ List.mem_filterMap.mpr ⟨tfr, htfr, hr2⟩
        exact ⟨r2.y_offset + r2.height,
          List.mem_map_of_mem (fun r => r.y_offset + r.height) this, hra ▸ hc.2.2.2⟩
      have hx1 : aggX1 cam (q0 :: qs) ≤ aggX1 cam (r0 :: rs) :=
        foldl_min_le_foldl_min le_rfl hdommin
      have hy1 : aggY1 cam (q0 :: qs) ≤ aggY1 cam (r0 :: rs) :=
        foldl_min_le_foldl_min le_rfl hdomminy
      have hx2 : aggX2 (r0 :: rs) ≤ aggX2 (q0 :: qs) :=
        foldl_max_le_foldl_max le_rfl hdommax
      have hy2 : aggY2 (r0 :: rs) ≤ aggY2 (q0 :: qs) :=
        foldl_max_le_foldl_max le_rfl hdommaxy
      subst h
      refine ⟨hx1, hy1, ?_, ?_⟩
      · show aggX1 cam (r0 :: rs) + (aggX2 (r0 :: rs) - aggX1 cam (r0 :: rs)) ≤
          aggX1 cam (q0 :: qs) + (aggX2 (q0 :: qs) - aggX1 cam (q0 :: qs))
        omega
      · show aggY1 cam (r0 :: rs) + (aggY2 (r0 :: rs) - aggY1 cam (r0 :: rs)) ≤
          aggY1 cam (q0 :: qs) + (aggY2 (q0 :: qs) - aggY1 cam (q0 :: qs))
        omega

/-- Claim C3 (amended): for the two linear, depth-independent vibration
terms `max_vibration_width` and `max_vibration_height`, and a
coordinate-monotone camera projection, increasing the term (holding all
other configuration values fixed) preserves success of the multi-pose
aggregation for a fixed pose set and never shrinks the rough ROI: the ROI
produced with the larger value contains the ROI produced with the smaller
value.  (As stated over all five `max_vibration_*` terms the claim is false:
increasing `max_vibration_depth` can push an enlarged corner to non-positive
depth so that every pose fails and no ROI is produced at all, see the
counterexample; the angular terms enter through `sin`, which is not
monotone.) -/
theorem claim_C3_amended (tfs : List Transform) (cam : CameraModel) (lm : Landmark)
    (cfg : Config) (d : ℝ) (R : Roi) (hmono : MonotoneProj cam) (hd : 0 ≤ d)
    (h : getTrafficMirrorRoiAgg tfs cam lm cfg = some R) :
    (∃ R2, getTrafficMirrorRoiAgg tfs cam lm
      (setVibWidth cfg (cfg.max_vibration_width + d)) = some R2 ∧ containsRoi R2 R) ∧
    (∃ R2, getTrafficMirrorRoiAgg tfs cam lm
      (setVibHeight cfg (cfg.max_vibration_height + d)) = some R2 ∧ containsRoi R2 R) := by
  constructor
  · refine agg_grow (fun tf r hr => roi_grow hmono ?_ ?_ ?_ ?_ ?_ ?_ hr) h
    · simp only [tlEnlarged, vibrationX, setVibWidth]
      linarith
    · simp only [tlEnlarged, vibrationY, setVibWidth]
      exact le_rfl
    · simp only [tlEnlarged, vibrationZ, setVibWidth]
    · simp only [brEnlarged, vibrationX, setVibWidth]
      linarith
    · simp only [brEnlarged, vibrationY, setVibWidth]
      exact le_rfl
    · simp only [brEnlarged, vibrationZ, setVibWidth]
  · refine agg_grow (fun tf r hr => roi_grow hmono ?_ ?_ ?_ ?_ ?_ ?_ hr) h
    · simp only [tlEnlarged, vibrationX, setVibHeight]
      exact le_rfl
    · simp only [tlEnlarged, vibrationY, setVibHeight]
      linarith
    · simp only [tlEnlarged, vibrationZ, setVibHeight]
    · simp only [brEnlarged, vibrationX, setVibHeight]
      exact le_rfl
    · simp only [brEnlarged, vibrationY, setVibHeight]
      linarith
    · simp only [brEnlarged, vibrationZ, setVibHeight]

/-! ### Visibility filter claims -/

/-- Claim C7 (contrapositive form): every landmark the visibility filter
reports visible has a present `subtype` attribute different from `"solid"`;
equivalently, a landmark whose `subtype` is absent or equals `"solid"` is
never reported visible, for any pose sequence, camera model and
configuration. -/
theorem claim_C7_solid_never_visible (lms : List Landmark) (poses : List Transform)
    (cam : CameraModel) (cfg : Config) (lm : Landmark)
    (h : lm ∈ getVisibleTrafficMirrors lms poses cam cfg) :
    lm.subtype ≠ none ∧ lm.subtype ≠ some "solid" := by
  have hvis : isVisibleMirror poses cam cfg lm :=
    @of_decide_eq_true _ (Classical.propDecidable _) (List.mem_filter.mp h).2
  obtain ⟨⟨s, hs, hsol⟩, -⟩ := hvis
  refine ⟨?_, ?_⟩
  · rw [hs]
    exact fun hc => Option.noConfusion hc
  · rw [hs]
    intro hc
    exact hsol (Option.some_inj.mp hc)

/-- Claim C8: whenever the visibility filter reports a landmark visible,
some candidate pose places at least one of its two reference points (the
raised top-left point or the bottom-right point), transformed into that
camera frame, at strictly positive depth with its raw projection inside
`[0, image_width) x [0, image_height)` (this is `isInImageFrame`). -/
theorem claim_C8_visible_in_frame (lms : List Landmark) (poses : List Transform)
    (cam : CameraModel) (cfg : Config) (lm : Landmark)
    (h : lm ∈ getVisibleTrafficMirrors lms poses cam cfg) :
    ∃ tf ∈ poses,
      isInImageFrame cam (invApply tf (getTrafficMirrorTopLeft lm)) ∨
      isInImageFrame cam (invApply tf (getTrafficMirrorBottomRight lm)) := by
  have hvis : isVisibleMirror poses cam cfg lm :=
    @of_decide_eq_true _ (Classical.propDecidable _) (List.mem_filter.mp h).2
  obtain ⟨-, tf, htf, -, -, hframe⟩ := hvis
  exact ⟨tf, htf, hframe⟩

/-! ### Congruence in the landmark argument (used for claim C10) -/

lemma isVisibleMirror_congr {lm lm' : Landmark} (poses : List Transform)
    (cam : CameraModel) (cfg : Config)
    (hsub : lm.subtype = lm'.subtype) (hfront : lm.front = lm'.front)
    (hback : lm.back = lm'.back)
    (htl : getTrafficMirrorTopLeft lm = getTrafficMirrorTopLeft lm') :
    isVisibleMirror poses cam cfg lm ↔ isVisibleMirror poses cam cfg lm' := by
  unfold isVisibleMirror getTrafficMirrorCenter landmarkYaw getTrafficMirrorBottomRight
  rw [hsub, hfront, hback, htl]

lemma getTrafficMirrorRoi_congr {lm lm' : Landmark} (tf : Transform) (cam : CameraModel)
    (cfg : Config) (hid : lm.id = lm'.id) (hback : lm.back = lm'.back)
    (htl : getTrafficMirrorTopLeft lm = getTrafficMirrorTopLeft lm') :
    getTrafficMirrorRoi tf cam lm cfg = getTrafficMirrorRoi tf cam lm' cfg := by
  have h1 : tlEnlarged tf lm cfg = tlEnlarged tf lm' cfg := by
    unfold tlEnlarged
    rw [htl]
  have h2 : brEnlarged tf lm cfg = brEnlarged tf lm' cfg := by
    unfold brEnlarged getTrafficMirrorBottomRight
    rw [hback]
  simp only [getTrafficMirrorRoi, roiXOffset, roiYOffset, roiWidth, roiHeight,
    tlPixel, brPixel, h1, h2, hid]

/-- Claim C10: a landmark without a `height` attribute is not rejected: its
raised top-left reference point is computed with the height treated as `0`,
so it equals the raw first endpoint, and both the visibility test and the
ROI projection behave exactly as for the same landmark carrying an explicit
height `0`. -/
theorem claim_C10_missing_height (lm : Landmark) (h : lm.heightAttr = none) :
    getTrafficMirrorTopLeft lm = lm.front ∧
    (∀ poses cam cfg, isVisibleMirror poses cam cfg lm ↔
      isVisibleMirror poses cam cfg (setHeightAttr lm (some 0))) ∧
    (∀ tf cam cfg, getTrafficMirrorRoi tf cam lm cfg =
      getTrafficMirrorRoi tf cam (setHeightAttr lm (some 0)) cfg) := by
  have htl : getTrafficMirrorTopLeft lm = getTrafficMirrorTopLeft (setHeightAttr lm (some 0)) := by
    simp [getTrafficMirrorTopLeft, setHeightAttr, h]
  refine ⟨?_, ?_, ?_⟩
  · simp [getTrafficMirrorTopLeft, h]
  · intro poses cam cfg
    exact isVisibleMirror_congr poses cam cfg rfl rfl rfl htl
  · intro tf cam cfg
    exact getTrafficMirrorRoi_congr tf cam cfg rfl rfl htl

/-! ### The angle test and its specification form (claim C5) -/

lemma normalizeRadian_sub_int (x : ℝ) :
    ∃ k : ℤ, normalizeRadian x = x - (k : ℝ) * (2 * Real.pi) := by
  unfold normalizeRadian fmodR
  split_ifs with h1 h2
  · exact ⟨truncR (x / (2 * Real.pi)), by ring⟩
  · exact ⟨truncR (x / (2 * Real.pi)) + 1, by push_cast; ring⟩
  · exact ⟨truncR (x / (2 * Real.pi)) - 1, by push_cast; ring⟩

lemma specNormalize_sub_int (x : ℝ) :
    ∃ k : ℤ, specNormalize x = x - (k : ℝ) * (2 * Real.pi) := by
  exact ⟨round (x / (2 * Real.pi)), by unfold specNormalize; ring⟩

lemma cos_normalizeRadian (x : ℝ) : Real.cos (normalizeRadian x) = Real.cos x := by
  obtain ⟨k, hk⟩ := normalizeRadian_sub_int x
  rw [hk, Real.cos_sub_int_mul_two_pi]

lemma sin_normalizeRadian (x : ℝ) : Real.sin (normalizeRadian x) = Real.sin x := by
  obtain ⟨k, hk⟩ := normalizeRadian_sub_int x
  rw [hk, Real.sin_sub_int_mul_two_pi]

lemma cos_specNormalize (x : ℝ) : Real.cos (specNormalize x) = Real.cos x := by
  obtain ⟨k, hk⟩ := specNormalize_sub_int x
  rw [hk, Real.cos_sub_int_mul_two_pi]

lemma sin_specNormalize (x : ℝ) : Real.sin (specNormalize x) = Real.sin x := by
  obtain ⟨k, hk⟩ := specNormalize_sub_int x
  rw [hk, Real.sin_sub_int_mul_two_pi]

/-- Claim C5: the visibility filter's angle test — `isInAngleRange` applied
to `landmarkYaw` (the normalized `atan2` of the map-plane top-left to
bottom-right vector plus `pi/2`) and `cameraYaw` (the normalized `atan2` of
the rotated forward axis projected on the map plane) with the fixed 40
degree threshold — passes exactly when the specification's formulation
passes: the absolute angular difference of the two yaws normalized into
`(-pi, pi]`, obtained via the dot product of their unit vectors and `acos`,
is strictly below 40 degrees.  (The two normalizations differ only by the
half-open side of the interval, which is immaterial under `cos`/`sin`.) -/
theorem claim_C5_angle_test (lm : Landmark) (tf : Transform) :
    isInAngleRange (landmarkYaw lm) (cameraYaw tf) (deg2rad 40) ↔ specAngleTest lm tf := by
  unfold isInAngleRange specAngleTest landmarkYaw cameraYaw specLandmarkYaw specCameraYaw
  rw [cos_normalizeRadian, sin_normalizeRadian, cos_normalizeRadian, sin_normalizeRadian,
    cos_specNormalize, sin_specNormalize, cos_specNormalize, sin_specNormalize]

/-! ### Claim C4: the sampling step of the candidate-pose loop -/

/-- Claim C4 (failing input): the node's candidate-pose loop uses the
hard-coded interval `0.01 s` (node.cpp:224) instead of the configured and
validated `timestamp_sample_len`.  With a frame at `t = 0`,
`min_timestamp_offset = 0`, `max_timestamp_offset = 0.05`,
`timestamp_sample_len = 0.05` and a pose source that answers every query
with its own timestamp, the code performs six lookups at
`0, 0.01, 0.02, 0.03, 0.04, 0.05` (seconds; stored as nanoseconds) while
the specified sampling (step equal to `timestamp_sample_len`) performs two,
at `0` and `0.05`. -/
theorem claim_C4_sampling_step_bug :
    getCandidatePoses (fun t => some t) 0 cfg4 =
      some [0, 10000000, 20000000, 30000000, 40000000, 50000000] ∧
    getCandidatePosesSpec (fun t => some t) 0 cfg4 = some [0, 50000000] := by
  constructor <;> decide

/-! ### Concrete evaluations used by the witnesses -/

lemma truncR_intCast (n : ℤ) : truncR (n : ℝ) = n := by
  unfold truncR
  split_ifs
  · exact Int.floor_intCast n
  · exact Int.ceil_intCast n

lemma truncR_eval {x : ℝ} {n : ℤ} (h : x = (n : ℝ)) : truncR x = n := by
  rw [h, truncR_intCast]

lemma tlEnlarged_lmOk : tlEnlarged tfId lmOk cfg0 = ⟨0, 0, 5⟩ := by
  unfold tlEnlarged vibrationX vibrationY vibrationZ invApply M3.tmulVec tfId idM3
    getTrafficMirrorTopLeft lmOk cfg0
  norm_num [Option.getD_none]

lemma brEnlarged_lmOk : brEnlarged tfId lmOk cfg0 = ⟨3, 4, 5⟩ := by
  unfold brEnlarged vibrationX vibrationY vibrationZ invApply M3.tmulVec tfId idM3
    getTrafficMirrorBottomRight lmOk cfg0
  norm_num

lemma tlPixel_lmOk : tlPixel tfId camP lmOk cfg0 = (0, 0) := by
  rw [tlPixel, tlEnlarged_lmOk]
  unfold roundInImageFrame calcRawImagePointFromPoint3D camP
  norm_num [min_def, max_def]

lemma brPixel_lmOk : brPixel tfId camP lmOk cfg0 = (3, 4) := by
  rw [brPixel, brEnlarged_lmOk]
  unfold roundInImageFrame calcRawImagePointFromPoint3D camP
  norm_num [min_def, max_def]

lemma roiXOffset_lmOk : roiXOffset tfId camP lmOk cfg0 = 0 := by
  rw [roiXOffset, tlPixel_lmOk]
  exact truncR_eval (by norm_num)

lemma roiYOffset_lmOk : roiYOffset tfId camP lmOk cfg0 = 0 := by
  rw [roiYOffset, tlPixel_lmOk]
  exact truncR_eval (by norm_num)

lemma roiWidth_lmOk : roiWidth tfId camP lmOk cfg0 = 3 := by
  rw [roiWidth, brPixel_lmOk, roiXOffset_lmOk]
  exact truncR_eval (by norm_num)

lemma roiHeight_lmOk : roiHeight tfId camP lmOk cfg0 = 4 := by
  rw [roiHeight, brPixel_lmOk, roiYOffset_lmOk]
  exact truncR_eval (by norm_num)

lemma single_lmOk : getTrafficMirrorRoi tfId camP lmOk cfg0 = some roiOk := by
  rw [getRoi_eq_some_iff]
  refine ⟨?_, ?_, ?_, ?_, ?_⟩
  · rw [tlEnlarged_lmOk]; norm_num
  · rw [brEnlarged_lmOk]; norm_num
  · rw [roiWidth_lmOk]; norm_num
  · rw [roiHeight_lmOk]; norm_num
  · rw [roiXOffset_lmOk, roiYOffset_lmOk, roiWidth_lmOk, roiHeight_lmOk]
    rfl

lemma agg_lmOk : getTrafficMirrorRoiAgg [tfId] camP lmOk cfg0 = some roiOk :=
  agg_singleton single_lmOk

lemma tlEnlarged_cfgD : tlEnlarged tfId lmOk cfgD = ⟨0, 0, -5⟩ := by
  unfold tlEnlarged vibrationX vibrationY vibrationZ invApply M3.tmulVec tfId idM3
    getTrafficMirrorTopLeft lmOk cfgD setVibDepth cfg0
  norm_num [Option.getD_none]

lemma single_cfgD_none : getTrafficMirrorRoi tfId camP lmOk cfgD = none := by
  have hz : (tlEnlarged tfId lmOk cfgD).z ≤ 0 := by
    rw [tlEnlarged_cfgD]
    norm_num
  unfold getTrafficMirrorRoi
  rw [if_pos hz]

lemma agg_cfgD_none : getTrafficMirrorRoiAgg [tfId] camP lmOk cfgD = none := by
  rw [agg_unfold]
  have h : ([tfId]).filterMap (fun tf => getTrafficMirrorRoi tf camP lmOk cfgD) = [] := by
    simp [List.filterMap_cons, single_cfgD_none]
  rw [h]

/-! ### Witnesses and the C3 counterexample -/

/-- Claim C3 counterexample: with the identity pose, the monotone test
camera and the landmark `lmOk`, the zero-vibration configuration `cfg0`
produces the rough ROI `(0, 0, 3, 4)`, but raising only
`max_vibration_depth` from `0` to `20` (configuration `cfgD`) pushes the
enlarged corners to depth `-5` and the aggregation fails entirely: the ROI
produced with the larger value does not contain the smaller one's — it does
not exist.  This refutes the claim as stated for `max_vibration_depth`. -/
theorem claim_C3_counterexample :
    cfgD = setVibDepth cfg0 20 ∧
    cfg0.max_vibration_depth < cfgD.max_vibration_depth ∧
    getTrafficMirrorRoiAgg [tfId] camP lmOk cfg0 = some roiOk ∧
    getTrafficMirrorRoiAgg [tfId] camP lmOk cfgD = none := by
  refine ⟨rfl, ?_, agg_lmOk, agg_cfgD_none⟩
  unfold cfgD setVibDepth cfg0
  norm_num

/-- Claim C3 witness: the amended monotonicity applied at the identity
pose, the monotone test camera, `lmOk`, `cfg0` and increment `1`: both
grown configurations still produce a ROI. -/
theorem claim_C3_witness :
    (getTrafficMirrorRoiAgg [tfId] camP lmOk
      (setVibWidth cfg0 (cfg0.max_vibration_width + 1))).isSome = true ∧
    (getTrafficMirrorRoiAgg [tfId] camP lmOk
      (setVibHeight cfg0 (cfg0.max_vibration_height + 1))).isSome = true := by
  have hm : MonotoneProj camP := by
    intro p q h1 h2 _
    exact ⟨h1, h2⟩
  have h := claim_C3_amended [tfId] camP lmOk cfg0 1 roiOk hm (by norm_num) agg_lmOk
  obtain ⟨⟨R2, hR2, -⟩, ⟨R3, hR3, -⟩⟩ := h
  constructor
  · rw [hR2]; rfl
  · rw [hR3]; rfl

/-- Claim C6 witness: on the singleton pose list the aggregate equals the
single-pose ROI and contains it. -/
theorem claim_C6_witness :
    getTrafficMirrorRoiAgg [tfId] camP lmOk cfg0 = some roiOk ∧ containsRoi roiOk roiOk := by
  refine ⟨agg_lmOk, ?_⟩
  exact (claim_C6_aggregation [tfId] camP lmOk cfg0 (by simp)).2 roiOk agg_lmOk tfId
    (by simp) roiOk single_lmOk

/-- Claim C9 witness: the singleton aggregation reproduces the single-pose
ROI `(0, 0, 3, 4)` exactly. -/
theorem claim_C9_witness :
    getTrafficMirrorRoiAgg [tfId] camP lmOk cfg0 = some roiOk :=
  claim_C9_singleton_agg tfId camP lmOk cfg0 roiOk single_lmOk

/-! ### A concrete visible landmark (witnesses for C7, C8, C10) -/

lemma truncR_zero : truncR 0 = 0 := by
  rw [truncR, if_pos le_rfl, Int.floor_zero]

lemma fmodR_zero (y : ℝ) : fmodR 0 y = 0 := by
  unfold fmodR
  rw [zero_div, truncR_zero]
  norm_num

lemma normalizeRadian_zero : normalizeRadian 0 = 0 := by
  unfold normalizeRadian
  rw [fmodR_zero]
  rw [if_pos ⟨by linarith [Real.pi_pos], Real.pi_pos⟩]

lemma atan2_zero_zero : atan2 0 0 = 0 := by
  unfold atan2
  norm_num

lemma atan2_neg_two_zero : atan2 (-2) 0 = -(Real.pi / 2) := by
  unfold atan2
  norm_num

lemma landmarkYaw_lmVis : landmarkYaw lmVis = 0 := by
  unfold landmarkYaw lmVis
  norm_num
  rw [atan2_neg_two_zero]
  have h : -(Real.pi / 2) + Real.pi / 2 = 0 := by ring
  rw [h, normalizeRadian_zero]

lemma cameraYaw_tfId : cameraYaw tfId = 0 := by
  unfold cameraYaw rotApply M3.mulVec tfId idM3
  norm_num
  rw [atan2_zero_zero, normalizeRadian_zero]

lemma angle_pass_lmVis : isInAngleRange (landmarkYaw lmVis) (cameraYaw tfId) (deg2rad 40) := by
  rw [landmarkYaw_lmVis, cameraYaw_tfId]
  unfold isInAngleRange deg2rad
  rw [Real.cos_zero, Real.sin_zero]
  norm_num [Real.arccos_one]
  positivity

lemma dist_pass_lmVis :
    isInDistanceRange (getTrafficMirrorCenter lmVis) tfId.origin cfg0.max_detection_range := by
  unfold isInDistanceRange getTrafficMirrorCenter getTrafficMirrorTopLeft
    getTrafficMirrorBottomRight lmVis tfId cfg0
  norm_num

lemma frame_pass_lmVis : isInImageFrame camP (invApply tfId (getTrafficMirrorTopLeft lmVis)) := by
  unfold isInImageFrame calcRawImagePointFromPoint3D camP invApply M3.tmulVec tfId idM3
    getTrafficMirrorTopLeft lmVis
  norm_num

lemma isVisible_lmVis : isVisibleMirror [tfId] camP cfg0 lmVis := by
  exact ⟨⟨"mirror", rfl, by decide⟩, tfId, by simp, dist_pass_lmVis, angle_pass_lmVis,
    Or.inl frame_pass_lmVis⟩

lemma vis_mem : lmVis ∈ getVisibleTrafficMirrors [lmVis] [tfId] camP cfg0 := by
  unfold getVisibleTrafficMirrors
  refine List.mem_filter.mpr ⟨by simp, ?_⟩
  exact @decide_eq_true (isVisibleMirror [tfId] camP cfg0 lmVis)
    (Classical.propDecidable _) isVisible_lmVis

/-- Claim C7 witness: the landmark `lmVis` is reported visible and, by the
claim theorem, its `subtype` attribute is present (and differs from
`"solid"`). -/
theorem claim_C7_witness :
    lmVis ∈ getVisibleTrafficMirrors [lmVis] [tfId] camP cfg0 ∧
    lmVis.subtype.isSome = true := by
  refine ⟨vis_mem, ?_⟩
  have h := claim_C7_solid_never_visible [lmVis] [tfId] camP cfg0 lmVis vis_mem
  exact Option.ne_none_iff_isSome.mp h.1

/-- Claim C8 witness: for the visible landmark `lmVis` and the single
candidate pose `tfId`, one of the two reference points is in frame. -/
theorem claim_C8_witness :
    isInImageFrame camP (invApply tfId (getTrafficMirrorTopLeft lmVis)) ∨
    isInImageFrame camP (invApply tfId (getTrafficMirrorBottomRight lmVis)) := by
  obtain ⟨tf, htf, hf⟩ := claim_C8_visible_in_frame [lmVis] [tfId] camP cfg0 lmVis vis_mem
  have heq : tf = tfId := by simpa using htf
  rwa [heq] at hf

/-- Claim C10 witness: `lmVis` has no height attribute; its top-left
reference equals its first endpoint and the pipeline treats it exactly like
the same landmark with explicit height `0`. -/
theorem claim_C10_witness :
    getTrafficMirrorTopLeft lmVis = lmVis.front ∧
    (isVisibleMirror [tfId] camP cfg0 lmVis ↔
      isVisibleMirror [tfId] camP cfg0 (setHeightAttr lmVis (some 0))) ∧
    getTrafficMirrorRoi tfId camP lmVis cfg0 =
      getTrafficMirrorRoi tfId camP (setHeightAttr lmVis (some 0)) cfg0 := by
  obtain ⟨h1, h2, h3⟩ := claim_C10_missing_height lmVis rfl
  exact ⟨h1, h2 [tfId] camP cfg0, h3 tfId camP cfg0⟩
